import Mathlib

/-!
Verification of the Build Stats aggregation engine
(`MonsterHunterWorld/api_views.py`, class `BuildStatsView`).

The Python code is shallowly embedded: every helper method of the view
becomes a Lean function over explicit data structures.  Database rows are
modelled as structures; tolerant field access (`getattr` + `int(...)` with
`try/except`) is modelled by the `PyInt` type below; Python dictionaries
(which preserve insertion order) are modelled as association lists; Django
querysets are modelled as lists held in a `Catalog` snapshot.
-/

namespace MHW

/-- A database field as observed through Python tolerant access:
the attribute may be absent (`missing`), hold `None` (`null`), hold a value
that `int(...)` rejects (`invalid`), or hold an integer. -/
inductive PyInt where
  | missing
  | null
  | invalid
  | val (n : Int)
deriving DecidableEq, Repr

/-- `BuildStatsView._pick_int_field`: walk the candidate attribute names in
order; at the first attribute that exists, return `default` if the value is
`None` or not int-coercible, else its integer value; if no candidate
exists, return `default`. -/
def pick_int_field : List PyInt → Int → Int
  | [], d => d
  | .missing :: rest, d => pick_int_field rest d
  | .null :: _, d => d
  | .invalid :: _, d => d
  | .val n :: _, _ => n

/-- Python `int(x or d)` on an optional integer `x`: `None` and `0` are
falsy and yield `d`; every other integer is kept. -/
def orFalsy (v : Option Int) (d : Int) : Int :=
  match v with
  | none => d
  | some n => if n = 0 then d else n

/-- Python `int(x or 1)` on an integer already stored in a dict row. -/
def or_one (n : Int) : Int := if n = 0 then 1 else n

/-- Python `str.strip()`: drop whitespace from both ends.  (Implemented
over the character list so that it reduces inside the kernel; the exact
whitespace set differs from Python only on exotic code points no claim
depends on.) -/
def py_strip (s : String) : String :=
  ⟨((s.data.dropWhile Char.isWhitespace).reverse.dropWhile
      Char.isWhitespace).reverse⟩

/-- Python `str.lower()`: characterwise lowercasing (same kernel-reducible
caveat as `py_strip`). -/
def py_lower (s : String) : String := ⟨s.data.map Char.toLower⟩

/-- Insertion-ordered association-list lookup (Python `dict.get`). -/
def lookupA {κ α : Type} [DecidableEq κ] : List (κ × α) → κ → Option α
  | [], _ => none
  | (k, v) :: rest, k1 => if k = k1 then some v else lookupA rest k1

/-- Insertion-ordered association-list write (Python `dict.__setitem__`):
updates in place when the key exists, appends otherwise. -/
def setA {κ α : Type} [DecidableEq κ] : List (κ × α) → κ → α → List (κ × α)
  | [], k, v => [(k, v)]
  | (k0, v0) :: rest, k, v =>
    if k0 = k then (k0, v) :: rest else (k0, v0) :: setA rest k v

/-- `Weapon` model row (`models.Weapon`), restricted to the fields the
stats engine reads.  `element` is the nullable element-type string. -/
structure Weapon where
  attack_raw : PyInt
  attack_display : PyInt
  affinity : PyInt
  element : Option String
  element_damage : PyInt
deriving DecidableEq, Repr

/-- `Armor` model row (`models.Armor`), restricted to the fields the stats
engine reads.  A `None` stored `armor_set_name` is modelled as `""`, which
the code treats identically via `(... or "")`. -/
structure Armor where
  id : Nat
  defense_base : PyInt
  defense_max : PyInt
  defense_augmented : PyInt
  res_fire : PyInt
  res_water : PyInt
  res_thunder : PyInt
  res_ice : PyInt
  res_dragon : PyInt
  armor_set_bonus_external_id : Option Int
  armor_set_external_id : Option Int
  armor_set_name : String
  armor_set_rank : Option String
deriving DecidableEq, Repr

/-- `Skill` model row.  `external_id` and `max_level` are kept optional so
that the tolerant `getattr(..., 0) or 0` / `or 1` accesses are explicit. -/
structure Skill where
  external_id : Option Int
  name : String
  max_level : Option Int
deriving DecidableEq, Repr

/-- `SetBonusRank` model row joined with its `SetBonus`
(`select_related("set_bonus", "skill")`). -/
structure SetBonusRank where
  set_bonus_external_id : Int
  set_bonus_name : String
  pieces : Int
  skill : Option Skill
  level : Option Int
deriving DecidableEq, Repr

/-- An `ArmorSkill` / `CharmSkill` / `DecorationSkill` join row
(`select_related("skill")`); `skill` is `none` when the related skill row
is gone. -/
structure SkillLink where
  skill : Option Skill
  level : Option Int
deriving DecidableEq, Repr

/-- A `BuildArmorPiece`: `armor` is `none` when `p.armor_id` is falsy. -/
structure BuildArmorPiece where
  armor : Option Armor
deriving DecidableEq, Repr

/-- A `Build` snapshot with its slot contents.  `weapon_id`/`charm_id` are
`none` when the foreign key is unset (Python falsy check). -/
structure Build where
  id : Nat
  weapon_id : Option Nat
  charm_id : Option Nat
  armor_pieces : List BuildArmorPiece
  decoration_ids : List Nat
deriving DecidableEq, Repr

/-- The read-only database snapshot the view queries. -/
structure Catalog where
  weapons : Nat → Option Weapon
  builds : Nat → Option Build
  ranks : List SetBonusRank
  armor_skills : List (Nat × SkillLink)
  charm_skills : List (Nat × SkillLink)
  decoration_skills : List (Nat × SkillLink)
  skills : List Skill

/-- `stats.attack` output block. -/
structure AttackOut where
  raw : Int
  display : Int
deriving DecidableEq, Repr

/-- `stats.element` output block. -/
structure ElementOut where
  type : Option String
  value : Int
deriving DecidableEq, Repr

/-- Python `(getattr(w, "element", None) or None)`: collapses the empty
string to `None`. -/
def element_type_of (w : Weapon) : Option String :=
  match w.element with
  | none => none
  | some s => if s = "" then none else some s

/-- `BuildStatsView._compute_weapon_stats`. -/
def compute_weapon_stats (cat : Catalog) (b : Build) :
    AttackOut × Int × ElementOut :=
  match b.weapon_id with
  | none => (⟨0, 0⟩, 0, ⟨none, 0⟩)
  | some wid =>
    match cat.weapons wid with
    | none => (⟨0, 0⟩, 0, ⟨none, 0⟩)
    | some w =>
      let raw := pick_int_field [w.attack_raw] 0
      let display := pick_int_field [w.attack_display] raw
      let aff := pick_int_field [w.affinity] 0
      let ev := pick_int_field [w.element_damage] 0
      match element_type_of w with
      | none => (⟨raw, display⟩, aff, ⟨none, 0⟩)
      | some t => (⟨raw, display⟩, aff, ⟨some t, ev⟩)

/-- `BuildStatsView._get_equipped_armors`: armor objects of the pieces
whose `armor_id` is set. -/
def get_equipped_armors (b : Build) : List Armor :=
  b.armor_pieces.filterMap (fun p => p.armor)

/-- `BuildStatsView._compute_defense`. -/
def compute_defense (b : Build) : Int :=
  (get_equipped_armors b).foldl
    (fun t a => t + pick_int_field [a.defense_base] 0) 0

/-- `stats.resistances` output block: always carries exactly the five
elemental keys. -/
structure Resistances where
  fire : Int
  water : Int
  thunder : Int
  ice : Int
  dragon : Int
deriving DecidableEq, Repr

/-- `BuildStatsView._compute_resistances`. -/
def compute_resistances (b : Build) : Resistances :=
  (get_equipped_armors b).foldl
    (fun r a =>
      { fire := r.fire + pick_int_field [a.res_fire] 0
        water := r.water + pick_int_field [a.res_water] 0
        thunder := r.thunder + pick_int_field [a.res_thunder] 0
        ice := r.ice + pick_int_field [a.res_ice] 0
        dragon := r.dragon + pick_int_field [a.res_dragon] 0 })
    ⟨0, 0, 0, 0, 0⟩

/-- `_SetKey` (frozen dataclass): the grouping key for set-bonus counting.
Dataclass equality compares all three fields. -/
structure SetKey where
  bonus_id : Option Int
  set_id : Option Int
  set_name : String
deriving DecidableEq, Repr

/-- `BuildStatsView._make_set_key`. -/
def make_set_key (a : Armor) : Option SetKey :=
  let set_name := py_strip a.armor_set_name
  if a.armor_set_bonus_external_id = none ∧ a.armor_set_external_id = none ∧
      set_name = "" then
    none
  else
    some { bonus_id := a.armor_set_bonus_external_id
           set_id := a.armor_set_external_id
           set_name := if set_name = "" then "Unknown Set" else set_name }

/-- Metadata recorded the first time a set key is seen. -/
structure SetMeta where
  name : String
  bonus_id : Option Int
  set_id : Option Int
  rank : Option String
deriving DecidableEq, Repr

/-- `BuildStatsView._count_equipped_set_pieces`: per-key piece counts plus
first-seen metadata, both as insertion-ordered maps. -/
def count_equipped_set_pieces (b : Build) :
    List (SetKey × Nat) × List (SetKey × SetMeta) :=
  b.armor_pieces.foldl
    (fun acc p =>
      match p.armor with
      | none => acc
      | some a =>
        match make_set_key a with
        | none => acc
        | some k =>
          let counts := setA acc.1 k ((lookupA acc.1 k).getD 0 + 1)
          let meta :=
            match lookupA acc.2 k with
            | some _ => acc.2
            | none =>
              acc.2 ++ [(k, ⟨k.set_name, k.bonus_id, k.set_id, a.armor_set_rank⟩)]
          (counts, meta))
    ([], [])

/-- Ordering used by the ranks queryset
(`order_by("set_bonus__external_id", "pieces", ...)`); the remaining tie
keys (skill name, level) affect no value computed by the view (threshold
sets and the best-level map are order-insensitive, and all ranks of one
bonus share the bonus row via the FK), so they are not modelled. -/
def rank_order (r1 r2 : SetBonusRank) : Prop :=
  r1.set_bonus_external_id < r2.set_bonus_external_id ∨
    (r1.set_bonus_external_id = r2.set_bonus_external_id ∧ r1.pieces ≤ r2.pieces)

instance : DecidableRel rank_order := fun _ _ => by
  unfold rank_order; infer_instance

/-- The ranks the view fetches for one observed bonus id (the single bulk
query grouped into `ranks_by_bonus` preserves query order per bonus). -/
def ranks_for (cat : Catalog) (bid : Int) : List SetBonusRank :=
  List.insertionSort rank_order
    (cat.ranks.filter (fun r => decide (r.set_bonus_external_id = bid)))

/-- One `set_bonuses` output row. -/
structure BonusRow where
  name : String
  pieces : Int
  active : Bool
deriving DecidableEq, Repr

/-- `info.get("name") or "Unknown Set"` on the (possibly missing) metadata
of a group. -/
def meta_name (info : Option SetMeta) : String :=
  match info with
  | none => "Unknown Set"
  | some m => if m.name = "" then "Unknown Set" else m.name

/-- Ascending-integer ordering for `sorted(...)` over piece thresholds. -/
def int_le (a b : Int) : Prop := a ≤ b

instance : DecidableRel int_le := fun _ _ => by unfold int_le; infer_instance

/-- The distinct positive thresholds of a rank list:
`sorted({int(r.pieces) for r in ranks if int(r.pieces) > 0})`. -/
def thresholds_of (ranks : List SetBonusRank) : List Int :=
  List.insertionSort int_le
    (((ranks.map (fun r => r.pieces)).filter (fun p => decide (0 < p))).dedup)

/-- The `set_bonuses` rows one counted group contributes (the body of the
loop in `BuildStatsView._compute_set_bonuses`). -/
def group_rows (cat : Catalog) (meta : List (SetKey × SetMeta)) (k : SetKey)
    (n : Nat) : List BonusRow :=
  let info := lookupA meta k
  match k.bonus_id with
  | none => [⟨meta_name info, (n : Int), false⟩]
  | some bid =>
    match ranks_for cat bid with
    | [] => [⟨meta_name info, (n : Int), false⟩]
    | r0 :: rest =>
      let ts := thresholds_of (r0 :: rest)
      if ts.isEmpty then [⟨r0.set_bonus_name, (n : Int), false⟩]
      else ts.map (fun t => ⟨r0.set_bonus_name, t, decide (t ≤ (n : Int))⟩)

/-- The pre-emission ordering of counted groups:
`sorted(counts.items(), key=lambda x: (-x[1], x[0].set_name.lower()))`. -/
def group_order (x y : SetKey × Nat) : Prop :=
  y.2 < x.2 ∨ (x.2 = y.2 ∧ py_lower x.1.set_name ≤ py_lower y.1.set_name)

instance : DecidableRel group_order := fun _ _ => by
  unfold group_order; infer_instance

/-- The final public ordering of `set_bonuses` rows:
`out.sort(key=lambda x: (name.lower(), pieces))`. -/
def row_order (x y : BonusRow) : Prop :=
  py_lower x.name < py_lower y.name ∨
    (py_lower x.name = py_lower y.name ∧ x.pieces ≤ y.pieces)

instance : DecidableRel row_order := fun _ _ => by
  unfold row_order; infer_instance

/-- `BuildStatsView._compute_set_bonuses`. -/
def compute_set_bonuses (cat : Catalog) (b : Build) : List BonusRow :=
  let cm := count_equipped_set_pieces b
  let pre := List.insertionSort group_order cm.1
  let rows := pre.flatMap (fun kn => group_rows cat cm.2 kn.1 kn.2)
  List.insertionSort row_order rows

/-- Summed equipped-piece counts per bonus id (first loop of
`BuildStatsView._compute_set_bonus_skill_contribs`); groups without a
bonus id are skipped. -/
def bonus_counts (counts : List (SetKey × Nat)) : List (Int × Nat) :=
  counts.foldl
    (fun acc kn =>
      match kn.1.bonus_id with
      | none => acc
      | some bid => setA acc bid ((lookupA acc bid).getD 0 + kn.2))
    []

/-- `int(getattr(s, "external_id", 0) or 0)` of a rank's (possibly
missing) skill; a missing skill reads as `0`, which the guard rejects. -/
def rank_skill_id (r : SetBonusRank) : Int :=
  match r.skill with
  | none => 0
  | some s => orFalsy s.external_id 0

/-- `int(getattr(r, "level", 0) or 0)` of a rank. -/
def rank_level (r : SetBonusRank) : Int := orFalsy r.level 0

/-- One iteration of the `best`-map loop in
`BuildStatsView._compute_set_bonus_skill_contribs`. -/
def contribs_step (bc : List (Int × Nat)) (best : List (Int × Int))
    (r : SetBonusRank) : List (Int × Int) :=
  let equipped : Int := ((lookupA bc r.set_bonus_external_id).getD 0 : Nat)
  if equipped < r.pieces then best
  else
    match r.skill with
    | none => best
    | some s =>
      let sid := orFalsy s.external_id 0
      let lvl := orFalsy r.level 0
      if sid ≤ 0 ∨ lvl ≤ 0 then best
      else
        match lookupA best sid with
        | none => setA best sid lvl
        | some cur => if cur < lvl then setA best sid lvl else best

/-- The bulk rank query of `_compute_set_bonus_skill_contribs`: all ranks
of the observed bonus ids (the keys of the summed counts map), in query
order. -/
def observed_ranks (cat : Catalog) (bc : List (Int × Nat)) :
    List SetBonusRank :=
  List.insertionSort rank_order
    (cat.ranks.filter
      (fun r => decide (r.set_bonus_external_id ∈ bc.map (fun kv => kv.1))))

/-- `BuildStatsView._compute_set_bonus_skill_contribs`: the map
`{skill external id → best granted level}` over active thresholds. -/
def compute_set_bonus_skill_contribs (cat : Catalog) (b : Build) :
    List (Int × Int) :=
  let bc := bonus_counts (count_equipped_set_pieces b).1
  if bc.isEmpty then []
  else (observed_ranks cat bc).foldl (contribs_step bc) []

/-- `skill_id` in the API contract: `int(getattr(skill, "external_id", 0) or 0)`. -/
def skill_external_id (s : Skill) : Int := orFalsy s.external_id 0

/-- `int(getattr(skill, "max_level", 1) or 1)`. -/
def skill_max_level (s : Skill) : Int := orFalsy s.max_level 1

/-- One accumulator / output row of the skills list.  `sources` is the
per-source breakdown dict (insertion-ordered). -/
structure SkillRow where
  skill_id : Int
  name : String
  level : Int
  max_level : Int
  sources : List (String × Int)
deriving DecidableEq, Repr

/-- The row produced by one `_merge_skill` call from the accumulator's
current row for the skill (or a fresh row on first sight): refresh the
name, raise `max_level`, bump the source bucket, bump the running level. -/
def merge_row (cur : Option SkillRow) (skill : Skill) (add_level : Int)
    (source_key : String) : SkillRow :=
  let ml := skill_max_level skill
  let row : SkillRow :=
    match cur with
    | none => ⟨skill_external_id skill, skill.name, 0, ml, []⟩
    | some r => r
  { row with
    name := skill.name
    max_level := max (or_one row.max_level) ml
    sources :=
      setA row.sources source_key
        ((lookupA row.sources source_key).getD 0 + add_level)
    level := row.level + add_level }

/-- `BuildStatsView._merge_skill`: merge one `(skill, level, source)`
contribution into the accumulator keyed by skill external id. -/
def merge_skill (acc : List (Int × SkillRow)) (skill : Skill)
    (add_level : Int) (source_key : String) : List (Int × SkillRow) :=
  if add_level ≤ 0 then acc
  else
    let sid := skill_external_id skill
    if sid ≤ 0 then acc
    else setA acc sid (merge_row (lookupA acc sid) skill add_level source_key)

/-- The clamp applied to one accumulator row by
`BuildStatsView._finalize_skills`: the displayed level is capped at
`int(max_level or 1)`; `max_level` and `sources` are left untouched. -/
def clamp_row (r : SkillRow) : SkillRow :=
  if or_one r.max_level < r.level then { r with level := or_one r.max_level }
  else r

/-- The output ordering of skill rows:
`out.sort(key=lambda x: (-level, name.lower()))`. -/
def skill_row_order (x y : SkillRow) : Prop :=
  y.level < x.level ∨ (x.level = y.level ∧ py_lower x.name ≤ py_lower y.name)

instance : DecidableRel skill_row_order := fun _ _ => by
  unfold skill_row_order; infer_instance

/-- `BuildStatsView._finalize_skills`. -/
def finalize_skills (acc : List (Int × SkillRow)) : List SkillRow :=
  List.insertionSort skill_row_order (acc.map (fun kv => clamp_row kv.2))

/-- `max(1, int(getattr(link, "level", 1) or 1))` for a join row. -/
def link_add_level (lv : Option Int) : Int := max 1 (orFalsy lv 1)

/-- Folding a list of join rows into the accumulator under one source tag;
rows whose related skill is gone are skipped. -/
def merge_links (acc : List (Int × SkillRow)) (links : List (Nat × SkillLink))
    (source_key : String) : List (Int × SkillRow) :=
  links.foldl
    (fun acc l =>
      match l.2.skill with
      | none => acc
      | some s => merge_skill acc s (link_add_level l.2.level) source_key)
    acc

/-- The dict comprehension `{int(s.external_id): s for s in qs}` restricted
to one external id: the last matching catalog skill wins. -/
def find_skill_by_external (cat : Catalog) (sid : Int) : Option Skill :=
  (cat.skills.filter (fun s => decide (s.external_id = some sid))).getLast?

/-- The accumulator built by `BuildStatsView._compute_all_skills` before
finalization: armor, charm, decoration, then set-bonus contributions. -/
def skill_acc (cat : Catalog) (b : Build) : List (Int × SkillRow) :=
  let armor_ids :=
    ((get_equipped_armors b).filter (fun a => decide (a.id ≠ 0))).map
      (fun a => a.id)
  let acc :=
    merge_links []
      (cat.armor_skills.filter (fun l => decide (l.1 ∈ armor_ids))) "armor"
  let acc :=
    match b.charm_id with
    | none => acc
    | some cid =>
      merge_links acc (cat.charm_skills.filter (fun l => decide (l.1 = cid)))
        "charm"
  let deco_ids := b.decoration_ids.dedup
  let acc :=
    merge_links acc
      (cat.decoration_skills.filter (fun l => decide (l.1 ∈ deco_ids)))
      "decoration"
  let contribs := compute_set_bonus_skill_contribs cat b
  contribs.foldl
    (fun acc kv =>
      match find_skill_by_external cat kv.1 with
      | none => acc
      | some s => merge_skill acc s (max 1 kv.2) "set_bonus")
    acc

/-- `BuildStatsView._compute_all_skills`. -/
def compute_all_skills (cat : Catalog) (b : Build) : List SkillRow :=
  finalize_skills (skill_acc cat b)

/-- The `stats` block of the response. -/
structure StatsBlock where
  attack : AttackOut
  affinity : Int
  element : ElementOut
  defense : Int
  resistances : Resistances
deriving DecidableEq, Repr

/-- The full response body assembled by `BuildStatsView.get`. -/
structure BuildStatsReport where
  build_id : Nat
  stats : StatsBlock
  skills : List SkillRow
  set_bonuses : List BonusRow
deriving DecidableEq, Repr

/-- The report for one resolved build (the body of `BuildStatsView.get`
after `get_object` succeeded). -/
def build_report (cat : Catalog) (b : Build) : BuildStatsReport :=
  let w := compute_weapon_stats cat b
  { build_id := b.id
    stats :=
      { attack := w.1
        affinity := w.2.1
        element := w.2.2
        defense := compute_defense b
        resistances := compute_resistances b }
    skills := compute_all_skills cat b
    set_bonuses := compute_set_bonuses cat b }

/-- The only error the endpoint signals: `get_object` raising `NotFound`
for an unknown build id. -/
inductive StatsError where
  | notFound
deriving DecidableEq, Repr

/-- `compute_build_stats`: the public operation of the engine
(`BuildStatsView.get` behind the snapshot loader). -/
def compute_build_stats (cat : Catalog) (bid : Nat) :
    Except StatsError BuildStatsReport :=
  match cat.builds bid with
  | none => .error .notFound
  | some b => .ok (build_report cat b)

/-! ### Association-list lemmas -/

theorem lookupA_setA {κ α : Type} [DecidableEq κ] (m : List (κ × α)) (k k1 : κ)
    (v : α) :
    lookupA (setA m k v) k1 = if k = k1 then some v else lookupA m k1 := by
  induction m with
  | nil => by_cases h : k = k1 <;> simp [setA, lookupA, h]
  | cons kv rest ih =>
    obtain ⟨k0, v0⟩ := kv
    by_cases h0 : k0 = k
    · subst h0
      by_cases h1 : k0 = k1 <;> simp [setA, lookupA, h1]
    · by_cases h1 : k0 = k1
      · subst h1
        have : ¬k = k0 := fun h => h0 h.symm
        simp [setA, lookupA, h0, this]
      · simp [setA, lookupA, h0, h1, ih]

theorem mem_setA {κ α : Type} [DecidableEq κ] {m : List (κ × α)} {k : κ}
    {v : α} {kv : κ × α} (h : kv ∈ setA m k v) : kv = (k, v) ∨ kv ∈ m := by
  induction m with
  | nil => simpa [setA] using h
  | cons kv0 rest ih =>
    obtain ⟨k0, v0⟩ := kv0
    by_cases h0 : k0 = k
    · subst h0
      rcases (by simpa [setA] using h : kv = (k0, v) ∨ kv ∈ rest) with h1 | h1
      · exact Or.inl h1
      · exact Or.inr (List.mem_cons_of_mem _ h1)
    · rcases (by simpa [setA, h0] using h : kv = (k0, v0) ∨ kv ∈ setA rest k v)
        with h1 | h1
      · exact Or.inr (by simp [h1])
      · rcases ih h1 with h2 | h2
        · exact Or.inl h2
        · exact Or.inr (List.mem_cons_of_mem _ h2)

theorem lookupA_mem {κ α : Type} [DecidableEq κ] {m : List (κ × α)} {k : κ}
    {v : α} (h : lookupA m k = some v) : (k, v) ∈ m := by
  induction m with
  | nil => simp [lookupA] at h
  | cons kv rest ih =>
    obtain ⟨k0, v0⟩ := kv
    by_cases h0 : k0 = k
    · subst h0
      simp [lookupA] at h
      simp [h]
    · simp [lookupA, h0] at h
      exact List.mem_cons_of_mem _ (ih h)

/-! ### Claim C7: final ordering of `set_bonuses` -/

instance : IsTotal BonusRow row_order := by
  constructor
  intro a b
  unfold row_order
  rcases lt_trichotomy (py_lower a.name) (py_lower b.name) with h | h | h
  · exact Or.inl (Or.inl h)
  · rcases le_total a.pieces b.pieces with hp | hp
    · exact Or.inl (Or.inr ⟨h, hp⟩)
    · exact Or.inr (Or.inr ⟨h.symm, hp⟩)
  · exact Or.inr (Or.inl h)

instance : IsTrans BonusRow row_order := by
  constructor
  intro a b c hab hbc
  unfold row_order at *
  rcases hab with h1 | ⟨h1, h1p⟩ <;> rcases hbc with h2 | ⟨h2, h2p⟩
  · exact Or.inl (lt_trans h1 h2)
  · exact Or.inl (lt_of_lt_of_le h1 (le_of_eq h2))
  · exact Or.inl (lt_of_le_of_lt (le_of_eq h1) h2)
  · exact Or.inr ⟨h1.trans h2, le_trans h1p h2p⟩

/-- C7: for every catalog and build, the returned `set_bonuses` list is
sorted by set name ascending case-insensitively with ties broken by pieces
ascending (`row_order`), whatever order groups were counted or thresholds
evaluated in. -/
theorem set_bonuses_sorted_final (cat : Catalog) (b : Build) :
    List.Sorted row_order (compute_set_bonuses cat b) := by
  unfold compute_set_bonuses
  exact List.sorted_insertionSort row_order _

/-! ### Claim C5: weapon stat integration -/

/-- C5: with no weapon the attack/affinity/element block is all zeroed;
with a weapon, `raw` comes from `attack_raw` (default 0), `display` falls
back to `raw` exactly when `attack_display` is absent/`None`/invalid,
`affinity` defaults to 0, and a weapon without an element type yields
`{type: null, value: 0}`. -/
theorem weapon_stats_spec (cat : Catalog) (b : Build) :
    (b.weapon_id = none →
      compute_weapon_stats cat b = (⟨0, 0⟩, 0, ⟨none, 0⟩)) ∧
    (∀ wid w, b.weapon_id = some wid → cat.weapons wid = some w →
      ((compute_weapon_stats cat b).1.raw =
        match w.attack_raw with
        | .val n => n
        | _ => 0) ∧
      ((∀ n, w.attack_display ≠ .val n) →
        (compute_weapon_stats cat b).1.display =
          (compute_weapon_stats cat b).1.raw) ∧
      (∀ n, w.attack_display = .val n →
        (compute_weapon_stats cat b).1.display = n) ∧
      ((∀ n, w.affinity ≠ .val n) → (compute_weapon_stats cat b).2.1 = 0) ∧
      (element_type_of w = none →
        (compute_weapon_stats cat b).2.2 = ⟨none, 0⟩)) := by
  constructor
  · intro h
    simp [compute_weapon_stats, h]
  · intro wid w hb hw
    have hcw :
        compute_weapon_stats cat b =
          (⟨pick_int_field [w.attack_raw] 0,
             pick_int_field [w.attack_display] (pick_int_field [w.attack_raw] 0)⟩,
           pick_int_field [w.affinity] 0,
           match element_type_of w with
           | none => ⟨none, 0⟩
           | some t => ⟨some t, pick_int_field [w.element_damage] 0⟩) := by
      unfold compute_weapon_stats
      rw [hb]
      dsimp only
      rw [hw]
      dsimp only
      cases he : element_type_of w <;> rfl
    refine ⟨?_, ?_, ?_, ?_, ?_⟩
    · rw [hcw]
      cases w.attack_raw <;> rfl
    · intro hnd
      rw [hcw]
      cases hd : w.attack_display <;> first
        | rfl
        | exact absurd hd (hnd _)
    · intro n hd
      rw [hcw]
      simp [hd, pick_int_field]
    · intro hna
      rw [hcw]
      cases ha : w.affinity <;> first
        | rfl
        | exact absurd ha (hna _)
    · intro he
      rw [hcw, he]

/-- A concrete weapon with an invalid `attack_display`, a missing
`affinity` attribute and an empty element string. -/
def exWeapon : Weapon := ⟨.val 80, .invalid, .missing, some "", .val 9⟩

/-- A concrete catalog holding only `exWeapon` under id 7. -/
def exWeaponCat : Catalog :=
  { weapons := fun i => if i = 7 then some exWeapon else none
    builds := fun _ => none
    ranks := []
    armor_skills := []
    charm_skills := []
    decoration_skills := []
    skills := [] }

/-- A concrete build equipping weapon 7 and nothing else. -/
def exWeaponBuild : Build :=
  { id := 1, weapon_id := some 7, charm_id := none, armor_pieces := []
    decoration_ids := [] }

/-- C5 witness: on `exWeaponBuild` the display attack falls back to the
raw attack, affinity defaults to 0, and the empty element string yields
the null element block. -/
theorem weapon_stats_spec_witness :
    (compute_weapon_stats exWeaponCat exWeaponBuild).1.display =
      (compute_weapon_stats exWeaponCat exWeaponBuild).1.raw ∧
    (compute_weapon_stats exWeaponCat exWeaponBuild).2.1 = 0 ∧
    (compute_weapon_stats exWeaponCat exWeaponBuild).2.2 = ⟨none, 0⟩ := by
  have h := (weapon_stats_spec exWeaponCat exWeaponBuild).2 7 exWeapon rfl rfl
  exact ⟨h.2.1 (fun n hn => by cases hn), h.2.2.2.1 (fun n hn => by cases hn),
    h.2.2.2.2 rfl⟩

/-! ### Claim C6: defense and resistance aggregation -/

/-- C6: defense is the raw sum of per-piece `defense_base` (with the
tolerant default 0), the resistance block is the raw componentwise sum of
the five per-piece resistance fields, and a build with no armor yields the
all-zero five-key block. -/
theorem defense_resistances_spec (b : Build) :
    compute_defense b =
      ((get_equipped_armors b).map
        (fun a => pick_int_field [a.defense_base] 0)).sum ∧
    compute_resistances b =
      { fire :=
          ((get_equipped_armors b).map
            (fun a => pick_int_field [a.res_fire] 0)).sum
        water :=
          ((get_equipped_armors b).map
            (fun a => pick_int_field [a.res_water] 0)).sum
        thunder :=
          ((get_equipped_armors b).map
            (fun a => pick_int_field [a.res_thunder] 0)).sum
        ice :=
          ((get_equipped_armors b).map
            (fun a => pick_int_field [a.res_ice] 0)).sum
        dragon :=
          ((get_equipped_armors b).map
            (fun a => pick_int_field [a.res_dragon] 0)).sum } ∧
    (get_equipped_armors b = [] → compute_resistances b = ⟨0, 0, 0, 0, 0⟩) := by
  have hd : ∀ (l : List Armor) (t : Int),
      l.foldl (fun t a => t + pick_int_field [a.defense_base] 0) t =
        t + (l.map (fun a => pick_int_field [a.defense_base] 0)).sum := by
    intro l
    induction l with
    | nil => intro t; simp
    | cons a l ih =>
      intro t
      simp only [List.foldl_cons, List.map_cons, List.sum_cons, ih]
      ring
  have hr : ∀ (l : List Armor) (r : Resistances),
      l.foldl
          (fun r a =>
            ({ fire := r.fire + pick_int_field [a.res_fire] 0
               water := r.water + pick_int_field [a.res_water] 0
               thunder := r.thunder + pick_int_field [a.res_thunder] 0
               ice := r.ice + pick_int_field [a.res_ice] 0
               dragon := r.dragon + pick_int_field [a.res_dragon] 0 } :
              Resistances)) r =
        { fire := r.fire + (l.map (fun a => pick_int_field [a.res_fire] 0)).sum
          water :=
            r.water + (l.map (fun a => pick_int_field [a.res_water] 0)).sum
          thunder :=
            r.thunder + (l.map (fun a => pick_int_field [a.res_thunder] 0)).sum
          ice := r.ice + (l.map (fun a => pick_int_field [a.res_ice] 0)).sum
          dragon :=
            r.dragon +
              (l.map (fun a => pick_int_field [a.res_dragon] 0)).sum } := by
    intro l
    induction l with
    | nil => intro r; simp
    | cons a l ih =>
      intro r
      simp only [List.foldl_cons, List.map_cons, List.sum_cons, ih,
        Resistances.mk.injEq]
      refine ⟨?_, ?_, ?_, ?_, ?_⟩ <;> ring
  refine ⟨?_, ?_, ?_⟩
  · unfold compute_defense
    rw [hd]
    simp
  · unfold compute_resistances
    rw [hr]
    simp
  · intro h
    unfold compute_resistances
    rw [h]
    rfl

/-- A build with some slots but no armor assigned anywhere. -/
def exNoArmorBuild : Build :=
  { id := 2, weapon_id := none, charm_id := none
    armor_pieces := [⟨none⟩, ⟨none⟩]
    decoration_ids := [] }

/-- C6 witness: the armor-less build still gets the full all-zero five-key
resistance block. -/
theorem defense_resistances_spec_witness :
    compute_resistances exNoArmorBuild = ⟨0, 0, 0, 0, 0⟩ :=
  (defense_resistances_spec exNoArmorBuild).2.2 rfl

/-! ### Claim C9: NotFound behaviour of the endpoint -/

/-- C9: `compute_build_stats` signals NotFound exactly for build ids the
snapshot loader cannot resolve, and returns the computed report for every
existing build (the embedding is total: no other error can escape, every
tolerant coercion having been given its defaulting semantics). -/
theorem build_stats_notfound_spec (cat : Catalog) (bid : Nat) :
    (compute_build_stats cat bid = .error .notFound ↔ cat.builds bid = none) ∧
    (∀ b, cat.builds bid = some b →
      compute_build_stats cat bid = .ok (build_report cat b)) := by
  unfold compute_build_stats
  cases h : cat.builds bid with
  | none => simp
  | some b0 =>
    constructor
    · simp
    · intro b hb
      rw [← Option.some_inj.mp hb]

/-- A one-build catalog for the NotFound witness. -/
def exStatsBuild : Build :=
  { id := 1, weapon_id := none, charm_id := none, armor_pieces := []
    decoration_ids := [] }

/-- Catalog resolving only build id 1. -/
def exStatsCat : Catalog :=
  { weapons := fun _ => none
    builds := fun i => match i with | 1 => some exStatsBuild | _ => none
    ranks := []
    armor_skills := []
    charm_skills := []
    decoration_skills := []
    skills := [] }

/-- C9 witness: the one existing build yields a report (not an error). -/
theorem build_stats_notfound_spec_witness :
    compute_build_stats exStatsCat 1 = .ok (build_report exStatsCat exStatsBuild) :=
  (build_stats_notfound_spec exStatsCat 1).2 exStatsBuild rfl

/-! ### Claim C10: dangling weapon reference -/

/-- C10: a set weapon reference that the catalog cannot resolve produces
exactly the no-weapon attack/affinity/element block, and the whole report
equals the report of the same build with no weapon reference at all. -/
theorem dangling_weapon_spec (cat : Catalog) (b : Build) (wid : Nat)
    (h1 : b.weapon_id = some wid) (h2 : cat.weapons wid = none) :
    compute_weapon_stats cat b = (⟨0, 0⟩, 0, ⟨none, 0⟩) ∧
    build_report cat b = build_report cat { b with weapon_id := none } := by
  have hw : compute_weapon_stats cat b = (⟨0, 0⟩, 0, ⟨none, 0⟩) := by
    unfold compute_weapon_stats
    rw [h1]
    dsimp only
    rw [h2]
  refine ⟨hw, ?_⟩
  have hw2 :
      compute_weapon_stats cat { b with weapon_id := none } =
        (⟨0, 0⟩, 0, ⟨none, 0⟩) := rfl
  unfold build_report
  rw [hw, hw2]
  rfl

/-- A build referencing weapon id 9, which the witness catalog cannot
resolve. -/
def exDanglingBuild : Build :=
  { id := 4, weapon_id := some 9, charm_id := none
    armor_pieces := []
    decoration_ids := [] }

/-- A catalog with no weapons at all. -/
def exDanglingCat : Catalog :=
  { weapons := fun _ => none
    builds := fun _ => none
    ranks := []
    armor_skills := []
    charm_skills := []
    decoration_skills := []
    skills := [] }

/-- C10 witness: the dangling-reference build reports exactly like its
weaponless twin. -/
theorem dangling_weapon_spec_witness :
    build_report exDanglingCat exDanglingBuild =
      build_report exDanglingCat { exDanglingBuild with weapon_id := none } :=
  (dangling_weapon_spec exDanglingCat exDanglingBuild 9 rfl rfl).2

/-! ### Claim C4: armor set grouping key -/

/-- The normalized set display name used inside `_make_set_key`:
`(armor_set_name or "").strip() or "Unknown Set"`. -/
def norm_set_name (a : Armor) : String :=
  if py_strip a.armor_set_name = "" then "Unknown Set" else py_strip a.armor_set_name

/-- An armor helper for concrete counterexamples: all combat fields zero,
varying only the set-membership triple. -/
def mkSetArmor (bid sid : Option Int) (nm : String) : Armor :=
  { id := 1, defense_base := .val 0, defense_max := .val 0
    defense_augmented := .val 0, res_fire := .val 0, res_water := .val 0
    res_thunder := .val 0, res_ice := .val 0, res_dragon := .val 0
    armor_set_bonus_external_id := bid, armor_set_external_id := sid
    armor_set_name := nm, armor_set_rank := none }

/-- A build equipping two pieces that share bonus id 5 but differ in set
id / set name. -/
def exSplitGroupBuild : Build :=
  { id := 1, weapon_id := none, charm_id := none
    armor_pieces :=
      [⟨some (mkSetArmor (some 5) none "Alpha")⟩,
       ⟨some (mkSetArmor (some 5) (some 2) "Beta")⟩]
    decoration_ids := [] }

/-- C4 counterexample: two equipped pieces share the same bonus identifier
`5`, yet their `_SetKey`s differ and `_count_equipped_set_pieces` files
them into two groups of one piece each — refuting "two pieces sharing the
same bonus identifier always group together". -/
theorem set_key_grouping_counterexample :
    (mkSetArmor (some 5) none "Alpha").armor_set_bonus_external_id =
      (mkSetArmor (some 5) (some 2) "Beta").armor_set_bonus_external_id ∧
    make_set_key (mkSetArmor (some 5) none "Alpha") ≠
      make_set_key (mkSetArmor (some 5) (some 2) "Beta") ∧
    (count_equipped_set_pieces exSplitGroupBuild).1.length = 2 ∧
    ∀ kv ∈ (count_equipped_set_pieces exSplitGroupBuild).1, kv.2 = 1 := by
  decide

/-- C4 amended: `_SetKey` equality — hence grouping — compares the whole
triple (bonus identifier, set identifier, normalized set display name with
the "Unknown Set" fallback); the bonus identifier is not a dominant
fallback key, so equal bonus identifiers alone do not force two pieces
into one group. -/
theorem set_key_grouping_amended (a1 a2 : Armor) (k1 k2 : SetKey)
    (h1 : make_set_key a1 = some k1) (h2 : make_set_key a2 = some k2) :
    k1 = k2 ↔
      (a1.armor_set_bonus_external_id = a2.armor_set_bonus_external_id ∧
       a1.armor_set_external_id = a2.armor_set_external_id ∧
       norm_set_name a1 = norm_set_name a2) := by
  unfold make_set_key at h1 h2
  dsimp only at h1 h2
  split_ifs at h1 h2 with hc1 hc2
  all_goals
    rw [Option.some_inj] at h1 h2
    subst h1
    subst h2
    simp [SetKey.mk.injEq, norm_set_name, *]

/-- C4 witness for the amended theorem: two pieces of the same set (all
three components equal) do produce equal keys. -/
theorem set_key_grouping_amended_witness :
    make_set_key (mkSetArmor (some 5) (some 2) "Leather") =
      some ⟨some 5, some 2, "Leather"⟩ ∧
    make_set_key (mkSetArmor (some 5) (some 2) " Leather ") =
      some ⟨some 5, some 2, "Leather"⟩ ∧
    ((⟨some 5, some 2, "Leather"⟩ : SetKey) = ⟨some 5, some 2, "Leather"⟩ ↔
      ((some 5 : Option Int) = some 5 ∧ (some 2 : Option Int) = some 2 ∧
        norm_set_name (mkSetArmor (some 5) (some 2) "Leather") =
          norm_set_name (mkSetArmor (some 5) (some 2) " Leather "))) := by
  refine ⟨by decide, by decide, ?_⟩
  exact set_key_grouping_amended (mkSetArmor (some 5) (some 2) "Leather")
    (mkSetArmor (some 5) (some 2) " Leather ") _ _ (by decide) (by decide)

/-! ### Claim C1: clamp invariant and unrescaled source breakdown -/

/-- The sum of the per-source breakdown values of a row. -/
def sources_total (r : SkillRow) : Int :=
  (r.sources.map (fun kv => kv.2)).sum

theorem orFalsy_ne_zero {v : Option Int} {d : Int} (hd : d ≠ 0) :
    orFalsy v d ≠ 0 := by
  unfold orFalsy
  cases v with
  | none => exact hd
  | some n =>
    by_cases h : n = 0 <;> simp [h, hd]

theorem or_one_of_ne_zero {n : Int} (h : n ≠ 0) : or_one n = n := by
  simp [or_one, h]

theorem sum_setA {κ : Type} [DecidableEq κ] (m : List (κ × Int)) (k : κ)
    (v : Int) :
    ((setA m k v).map (fun kv => kv.2)).sum =
      (m.map (fun kv => kv.2)).sum - (lookupA m k).getD 0 + v := by
  induction m with
  | nil => simp [setA, lookupA]
  | cons kv0 rest ih =>
    obtain ⟨k0, v0⟩ := kv0
    by_cases h0 : k0 = k
    · subst h0
      simp [setA, lookupA]
      ring
    · simp [setA, lookupA, h0, ih]
      ring

/-- The well-formedness every accumulator row built by `_merge_skill`
enjoys: a nonzero `max_level` and a level equal to the raw sum of its
source breakdown. -/
def RowInv (r : SkillRow) : Prop :=
  r.max_level ≠ 0 ∧ r.level = sources_total r

theorem merge_row_inv (cur : Option SkillRow) (s : Skill) (a : Int)
    (key : String) (hcur : ∀ r, cur = some r → RowInv r) :
    RowInv (merge_row cur s a key) := by
  have hml : skill_max_level s ≠ 0 := orFalsy_ne_zero (by norm_num)
  cases cur with
  | none =>
    refine ⟨?_, ?_⟩
    · unfold merge_row
      dsimp only
      rcases max_choice (or_one (skill_max_level s)) (skill_max_level s) with
        h | h <;> rw [h]
      · exact fun hz => hml (by simpa [or_one_of_ne_zero hml] using hz)
      · exact hml
    · unfold merge_row sources_total
      dsimp only
      rw [sum_setA]
      simp [lookupA]
  | some r =>
    obtain ⟨hmax, hlvl⟩ := hcur r rfl
    refine ⟨?_, ?_⟩
    · unfold merge_row
      dsimp only
      rcases max_choice (or_one r.max_level) (skill_max_level s) with h | h <;>
        rw [h]
      · rw [or_one_of_ne_zero hmax]
        exact hmax
      · exact hml
    · unfold merge_row sources_total
      dsimp only
      rw [sum_setA]
      unfold sources_total at hlvl
      omega

theorem merge_skill_inv {acc : List (Int × SkillRow)} (s : Skill) (a : Int)
    (key : String) (hacc : ∀ kv ∈ acc, RowInv kv.2) :
    ∀ kv ∈ merge_skill acc s a key, RowInv kv.2 := by
  unfold merge_skill
  dsimp only
  split_ifs with h1 h2
  · exact hacc
  · exact hacc
  · intro kv hkv
    rcases mem_setA hkv with h | h
    · subst h
      exact merge_row_inv _ s a key (fun r hr => hacc _ (lookupA_mem hr))
    · exact hacc kv h

theorem foldl_merge_inv {A : Type}
    (f : List (Int × SkillRow) → A → List (Int × SkillRow))
    (hf : ∀ acc a, (∀ kv ∈ acc, RowInv kv.2) → ∀ kv ∈ f acc a, RowInv kv.2) :
    ∀ (l : List A) (acc : List (Int × SkillRow)),
      (∀ kv ∈ acc, RowInv kv.2) → ∀ kv ∈ l.foldl f acc, RowInv kv.2 := by
  intro l
  induction l with
  | nil => intro acc h; exact h
  | cons a rest ih =>
    intro acc h
    rw [List.foldl_cons]
    exact ih _ (hf acc a h)

theorem merge_links_inv (links : List (Nat × SkillLink)) (key : String)
    (acc : List (Int × SkillRow)) (hacc : ∀ kv ∈ acc, RowInv kv.2) :
    ∀ kv ∈ merge_links acc links key, RowInv kv.2 := by
  unfold merge_links
  apply foldl_merge_inv _ _ links acc hacc
  intro acc0 l h0
  cases hs : l.2.skill with
  | none => simpa [hs] using h0
  | some s =>
    intro kv hkv
    exact merge_skill_inv s _ _ h0 kv hkv

theorem skill_acc_inv (cat : Catalog) (b : Build) :
    ∀ kv ∈ skill_acc cat b, RowInv kv.2 := by
  unfold skill_acc
  dsimp only
  apply foldl_merge_inv
  · intro acc0 kv0 h0
    cases hf : find_skill_by_external cat kv0.1 with
    | none => simpa [hf] using h0
    | some s =>
      intro kv hkv
      exact merge_skill_inv s _ _ h0 kv hkv
  · apply merge_links_inv
    cases hc : b.charm_id with
    | none =>
      apply merge_links_inv
      simp
    | some cid =>
      apply merge_links_inv
      apply merge_links_inv
      simp

theorem clamp_row_max_level (r : SkillRow) :
    (clamp_row r).max_level = r.max_level := by
  unfold clamp_row
  split_ifs <;> rfl

theorem clamp_row_sources (r : SkillRow) :
    (clamp_row r).sources = r.sources := by
  unfold clamp_row
  split_ifs <;> rfl

/-- C1: every skill row of the final output satisfies
`level ≤ max_level`, while the per-source breakdown is untouched by the
clamp: the output row's `sources` is exactly the accumulator row's raw
breakdown, whose values sum to the pre-clamp level, so the breakdown sum
may exceed the displayed (clamped) level but never falls below it. -/
theorem skill_clamp_spec (cat : Catalog) (b : Build) (row : SkillRow)
    (h : row ∈ compute_all_skills cat b) :
    row.level ≤ row.max_level ∧
    row.level ≤ sources_total row ∧
    ∃ kv ∈ skill_acc cat b, clamp_row kv.2 = row ∧
      row.sources = kv.2.sources ∧ kv.2.level = sources_total kv.2 := by
  unfold compute_all_skills finalize_skills at h
  rw [List.mem_insertionSort] at h
  rcases List.mem_map.mp h with ⟨kv, hkv, heq⟩
  obtain ⟨hmax, hlvl⟩ := skill_acc_inv cat b kv hkv
  have hsrc : row.sources = kv.2.sources := by
    rw [← heq]
    exact clamp_row_sources kv.2
  have hst : sources_total row = sources_total kv.2 := by
    unfold sources_total
    rw [hsrc]
  have hmx : row.max_level = kv.2.max_level := by
    rw [← heq]
    exact clamp_row_max_level kv.2
  refine ⟨?_, ?_, kv, hkv, heq, hsrc, hlvl⟩
  · rw [← heq, clamp_row_max_level]
    unfold clamp_row
    split_ifs with hc
    · simp only
      rw [or_one_of_ne_zero hmax]
    · rw [or_one_of_ne_zero hmax] at hc
      omega
  · rw [← heq]
    have hst2 : sources_total (clamp_row kv.2) = sources_total kv.2 := by
      unfold sources_total
      rw [clamp_row_sources]
    rw [hst2]
    unfold clamp_row
    split_ifs with hc
    · simp only
      omega
    · omega

/-- A skill granted level 2 by armor and level 2 by a decoration against a
cap of 3 (the spec's Scenario B shape). -/
def exClampSkill : Skill := ⟨some 7, "Attack Boost", some 3⟩

/-- Catalog for the clamp witness. -/
def exClampCat : Catalog :=
  { weapons := fun _ => none
    builds := fun _ => none
    ranks := []
    armor_skills := [(1, ⟨some exClampSkill, some 2⟩)]
    charm_skills := []
    decoration_skills := [(4, ⟨some exClampSkill, some 2⟩)]
    skills := [exClampSkill] }

/-- Build for the clamp witness: one armor piece, one decoration. -/
def exClampBuild : Build :=
  { id := 6, weapon_id := none, charm_id := none
    armor_pieces := [⟨some (mkSetArmor none none "")⟩]
    decoration_ids := [4] }

/-- The produced output row: displayed level clamped to 3, breakdown kept
at armor 2 + decoration 2 = 4. -/
def exClampRow : SkillRow :=
  ⟨7, "Attack Boost", 3, 3, [("armor", 2), ("decoration", 2)]⟩

/-- C1 witness: the Scenario-B row is clamped yet keeps its raw breakdown
(summing past the displayed level). -/
theorem skill_clamp_spec_witness :
    exClampRow ∈ compute_all_skills exClampCat exClampBuild ∧
    exClampRow.level ≤ exClampRow.max_level ∧
    exClampRow.level ≤ sources_total exClampRow ∧
    sources_total exClampRow = 4 := by
  refine ⟨by decide, ?_, ?_, by decide⟩
  · exact (skill_clamp_spec exClampCat exClampBuild exClampRow (by decide)).1
  · exact (skill_clamp_spec exClampCat exClampBuild exClampRow (by decide)).2.1

/-! ### Claim C2: set-bonus skill grants -/

/-- The claim's grant condition for one rank, phrased over the summed
per-bonus equipped counts: the equipped count (0 when the bonus is not
worn) meets the rank's pieces threshold, and the rank carries a positive
skill external id and a positive level. -/
def granted_rank (bc : List (Int × Nat)) (r : SetBonusRank) : Bool :=
  decide (r.pieces ≤ (((lookupA bc r.set_bonus_external_id).getD 0 : Nat) : Int)) &&
    decide (0 < rank_skill_id r) && decide (0 < rank_level r)

/-- Combine two optional maxima (the monoid the best-level map folds in). -/
def combineMax : Option Int → Option Int → Option Int
  | none, m => m
  | some a, none => some a
  | some a, some b2 => some (max a b2)

/-- The maximum of a list of integers, `none` when empty. -/
def listMax : List Int → Option Int
  | [] => none
  | x :: xs => combineMax (some x) (listMax xs)

theorem combineMax_none (a : Option Int) : combineMax a none = a := by
  cases a <;> rfl

theorem combineMax_assoc (a b2 c : Option Int) :
    combineMax (combineMax a b2) c = combineMax a (combineMax b2 c) := by
  cases a <;> cases b2 <;> cases c <;> simp [combineMax, max_assoc]

theorem listMax_perm {l1 l2 : List Int} (h : List.Perm l1 l2) :
    listMax l1 = listMax l2 := by
  induction h with
  | nil => rfl
  | cons x h2 ih => simp [listMax, ih]
  | swap x y l =>
    simp only [listMax]
    cases listMax l with
    | none => simp [combineMax, max_comm]
    | some m => simp [combineMax, max_left_comm]
  | trans h1 h2 ih1 ih2 => exact ih1.trans ih2

theorem contribs_step_not_granted {bc : List (Int × Nat)}
    {best : List (Int × Int)} {r : SetBonusRank}
    (h : granted_rank bc r = false) : contribs_step bc best r = best := by
  unfold contribs_step
  dsimp only
  split_ifs with h1
  · rfl
  · cases hs : r.skill with
    | none => rfl
    | some s =>
      dsimp only
      split_ifs with h2
      · rfl
      · exfalso
        simp [granted_rank, rank_skill_id, rank_level, hs] at h
        push_neg at h2
        omega

theorem contribs_step_lookup_ne {bc : List (Int × Nat)}
    {best : List (Int × Int)} {r : SetBonusRank} {sid : Int}
    (hne : rank_skill_id r ≠ sid) :
    lookupA (contribs_step bc best r) sid = lookupA best sid := by
  unfold contribs_step
  dsimp only
  split_ifs with h1
  · rfl
  · cases hs : r.skill with
    | none => rfl
    | some s =>
      dsimp only
      have hsid : orFalsy s.external_id 0 = rank_skill_id r := by
        simp [rank_skill_id, hs]
      split_ifs with h2
      · rfl
      · cases hlk : lookupA best (orFalsy s.external_id 0) with
        | none =>
          rw [lookupA_setA, hsid, if_neg hne]
        | some cur =>
          dsimp only
          split_ifs with h3
          · rw [lookupA_setA, hsid, if_neg hne]
          · rfl

theorem contribs_step_lookup_self {bc : List (Int × Nat)}
    {best : List (Int × Int)} {r : SetBonusRank}
    (h : granted_rank bc r = true) :
    lookupA (contribs_step bc best r) (rank_skill_id r) =
      combineMax (lookupA best (rank_skill_id r)) (some (rank_level r)) := by
  have hcond := by simpa [granted_rank] using h
  obtain ⟨⟨hp, hsid⟩, hlvl⟩ :
      (r.pieces ≤ (((lookupA bc r.set_bonus_external_id).getD 0 : Nat) : Int) ∧
        0 < rank_skill_id r) ∧ 0 < rank_level r := hcond
  unfold contribs_step
  dsimp only
  rw [if_neg (by omega)]
  cases hs : r.skill with
  | none =>
    exfalso
    simp [rank_skill_id, hs] at hsid
  | some s =>
    dsimp only
    have hsid2 : orFalsy s.external_id 0 = rank_skill_id r := by
      simp [rank_skill_id, hs]
    have hlvl2 : orFalsy r.level 0 = rank_level r := rfl
    rw [if_neg (by rw [hsid2, hlvl2]; push_neg; omega)]
    cases hlk : lookupA best (orFalsy s.external_id 0) with
    | none =>
      rw [lookupA_setA, hsid2, if_pos rfl, hsid2] at *
      rw [hlk]
      rfl
    | some cur =>
      dsimp only
      rw [hsid2] at hlk
      split_ifs with h3
      · rw [lookupA_setA, hsid2, if_pos rfl, hlk, hlvl2]
        simp [combineMax]
        omega
      · rw [hlk]
        rw [hlvl2] at h3
        simp [combineMax]
        omega

theorem lookupA_fold_contribs (bc : List (Int × Nat)) (sid : Int) :
    ∀ (rs : List SetBonusRank) (best : List (Int × Int)),
      lookupA (rs.foldl (contribs_step bc) best) sid =
        combineMax (lookupA best sid)
          (listMax ((rs.filter (fun r => granted_rank bc r &&
              decide (rank_skill_id r = sid))).map rank_level)) := by
  intro rs
  induction rs with
  | nil =>
    intro best
    simp only [List.foldl_nil, List.filter_nil, List.map_nil]
    rw [show listMax [] = none from rfl, combineMax_none]
  | cons r rest ih =>
    intro best
    rw [List.foldl_cons, ih]
    by_cases hg : granted_rank bc r = true ∧ rank_skill_id r = sid
    · obtain ⟨hg1, hg2⟩ := hg
      rw [List.filter_cons_of_pos (by simp [hg1, hg2]), List.map_cons]
      show _ = combineMax (lookupA best sid)
        (combineMax (some (rank_level r)) _)
      rw [← combineMax_assoc, ← hg2, contribs_step_lookup_self hg1, hg2]
    · have hcond : (granted_rank bc r && decide (rank_skill_id r = sid)) = false := by
        by_cases h : granted_rank bc r = true
        · have hne : rank_skill_id r ≠ sid := fun he => hg ⟨h, he⟩
          simp [h, hne]
        · simp [Bool.eq_false_iff.mpr h]
      rw [List.filter_cons_of_neg (by simp [hcond])]
      by_cases hgr : granted_rank bc r = true
      · have hne : rank_skill_id r ≠ sid := fun he => hg ⟨hgr, he⟩
        rw [contribs_step_lookup_ne hne]
      · rw [contribs_step_not_granted (Bool.eq_false_iff.mpr hgr)]

/-- C2: the contribution map holds an entry for a skill external id
exactly when some observed rank granting that skill is satisfied, its
value being the highest level among the satisfied ranks granting it;
ranks failing `equipped-count ≥ pieces`, or carrying a non-positive skill
external id or level, contribute nothing.  (The hypothesis is the data
model's invariant that piece thresholds are positive.) -/
theorem set_bonus_contribs_spec (cat : Catalog) (b : Build) (sid : Int)
    (hpos : ∀ r ∈ cat.ranks, 0 < r.pieces) :
    lookupA (compute_set_bonus_skill_contribs cat b) sid =
      listMax
        ((cat.ranks.filter
            (fun r =>
              granted_rank (bonus_counts (count_equipped_set_pieces b).1) r &&
                decide (rank_skill_id r = sid))).map rank_level) := by
  unfold compute_set_bonus_skill_contribs
  dsimp only
  by_cases hemp : (bonus_counts (count_equipped_set_pieces b).1).isEmpty
  · rw [if_pos hemp]
    have hnil : bonus_counts (count_equipped_set_pieces b).1 = [] :=
      List.isEmpty_iff.mp hemp
    rw [hnil]
    have hfil : cat.ranks.filter
        (fun r => granted_rank [] r && decide (rank_skill_id r = sid)) = [] := by
      apply List.filter_eq_nil_iff.mpr
      intro r hr
      have := hpos r hr
      simp [granted_rank, lookupA]
      intro hc
      omega
    rw [hfil]
    rfl
  · rw [if_neg hemp]
    rw [lookupA_fold_contribs]
    rw [show lookupA ([] : List (Int × Int)) sid = none from rfl]
    rw [show combineMax none
      (listMax ((List.filter (fun r => granted_rank
        (bonus_counts (count_equipped_set_pieces b).1) r &&
          decide (rank_skill_id r = sid))
        (observed_ranks cat (bonus_counts (count_equipped_set_pieces b).1))).map
            rank_level)) = _ from rfl]
    apply listMax_perm
    apply List.Perm.map
    have hperm1 : List.Perm
        (observed_ranks cat (bonus_counts (count_equipped_set_pieces b).1))
        (cat.ranks.filter (fun r => decide (r.set_bonus_external_id ∈
          (bonus_counts (count_equipped_set_pieces b).1).map (fun kv => kv.1)))) :=
      List.perm_insertionSort rank_order _
    refine (hperm1.filter _).trans ?_
    rw [List.filter_filter]
    apply List.Perm.of_eq
    apply List.filter_congr
    intro r hr
    by_cases hall : (granted_rank (bonus_counts (count_equipped_set_pieces b).1) r &&
        decide (rank_skill_id r = sid)) = true
    · have hgr : granted_rank (bonus_counts (count_equipped_set_pieces b).1) r = true := by
        have h2 := hall
        rw [Bool.and_eq_true] at h2
        exact h2.1
      have hmem : r.set_bonus_external_id ∈
          (bonus_counts (count_equipped_set_pieces b).1).map (fun kv => kv.1) := by
        have hp := hpos r hr
        rcases hlk : lookupA (bonus_counts (count_equipped_set_pieces b).1)
            r.set_bonus_external_id with _ | v
        · exfalso
          simp [granted_rank, hlk] at hgr
          omega
        · exact List.mem_map.mpr ⟨_, lookupA_mem hlk, rfl⟩
      simp [hall, hmem]
    · simp [Bool.eq_false_iff.mpr hall]

/-- The skill granted by the witness set bonus. -/
def exBonusSkill : Skill := ⟨some 429, "Guts", some 3⟩

/-- Scenario-C catalog: one bonus (id 5) granting the same skill at 2
pieces (level 1) and 4 pieces (level 2). -/
def exScenarioCCat : Catalog :=
  { weapons := fun _ => none
    builds := fun _ => none
    ranks := [⟨5, "Guts Bonus", 2, some exBonusSkill, some 1⟩,
              ⟨5, "Guts Bonus", 4, some exBonusSkill, some 2⟩]
    armor_skills := []
    charm_skills := []
    decoration_skills := []
    skills := [exBonusSkill] }

/-- Scenario-C build: four pieces of the bonus-5 set equipped. -/
def exScenarioCBuild : Build :=
  { id := 8, weapon_id := none, charm_id := none
    armor_pieces :=
      [⟨some (mkSetArmor (some 5) (some 200) "Leather")⟩,
       ⟨some (mkSetArmor (some 5) (some 200) "Leather")⟩,
       ⟨some (mkSetArmor (some 5) (some 200) "Leather")⟩,
       ⟨some (mkSetArmor (some 5) (some 200) "Leather")⟩]
    decoration_ids := [] }

/-- C2 witness (Scenario C): with both thresholds satisfied the granted
level is the best one (2), not the sum (3). -/
theorem set_bonus_contribs_spec_witness :
    lookupA (compute_set_bonus_skill_contribs exScenarioCCat exScenarioCBuild)
        429 =
      listMax
        ((exScenarioCCat.ranks.filter
            (fun r =>
              granted_rank
                  (bonus_counts (count_equipped_set_pieces exScenarioCBuild).1)
                  r &&
                decide (rank_skill_id r = 429))).map rank_level) ∧
    lookupA (compute_set_bonus_skill_contribs exScenarioCCat exScenarioCBuild)
        429 = some 2 := by
  refine ⟨?_, by decide⟩
  exact set_bonus_contribs_spec exScenarioCCat exScenarioCBuild 429 (by decide)

/-! ### Claim C3: set-bonus threshold rows -/

/-- The rows one counted group should contribute, written from the claim:
a group with a bonus id that has ranks with positive thresholds yields one
row per distinct positive threshold with `active` iff the equipped count
meets it; any other group yields a single inactive row carrying the
group's own piece count. -/
def spec_group_rows (cat : Catalog) (meta : List (SetKey × SetMeta))
    (k : SetKey) (n : Nat) : List BonusRow :=
  match k.bonus_id with
  | none => [⟨meta_name (lookupA meta k), (n : Int), false⟩]
  | some bid =>
    match ranks_for cat bid with
    | [] => [⟨meta_name (lookupA meta k), (n : Int), false⟩]
    | r0 :: rest =>
      let ts := (((r0 :: rest).map (fun r => r.pieces)).filter
        (fun p => decide (0 < p))).dedup
      if ts.isEmpty then [⟨r0.set_bonus_name, (n : Int), false⟩]
      else ts.map (fun t => ⟨r0.set_bonus_name, t, decide (t ≤ (n : Int))⟩)

theorem group_rows_perm (cat : Catalog) (meta : List (SetKey × SetMeta))
    (k : SetKey) (n : Nat) :
    List.Perm (group_rows cat meta k n) (spec_group_rows cat meta k n) := by
  unfold group_rows spec_group_rows
  cases k.bonus_id with
  | none => exact List.Perm.refl _
  | some bid =>
    dsimp only
    cases hr : ranks_for cat bid with
    | nil => exact List.Perm.refl _
    | cons r0 rest =>
      dsimp only
      have hperm : List.Perm (thresholds_of (r0 :: rest))
          ((((r0 :: rest).map (fun r => r.pieces)).filter
            (fun p => decide (0 < p))).dedup) :=
        List.perm_insertionSort int_le _
      by_cases hemp : (((r0 :: rest).map (fun r => r.pieces)).filter
          (fun p => decide (0 < p))).dedup = []
      · have hts : thresholds_of (r0 :: rest) = [] := by
          rw [hemp] at hperm
          exact List.Perm.eq_nil hperm
        rw [hts, hemp]
      · have hts : ¬ thresholds_of (r0 :: rest) = [] := by
          intro h0
          rw [h0] at hperm
          exact hemp (List.Perm.nil_eq hperm).symm
        rw [if_neg (by simpa [List.isEmpty_iff] using hts),
          if_neg (by simpa [List.isEmpty_iff] using hemp)]
        exact hperm.map _

/-- C3: the emitted `set_bonuses` list is, as a multiset, exactly the
claim's per-group rows (`spec_group_rows`), and within each group the
threshold rows carry pairwise distinct `pieces` values — one row per
distinct positive threshold. -/
theorem set_bonus_rows_spec (cat : Catalog) (b : Build) :
    List.Perm (compute_set_bonuses cat b)
      (((count_equipped_set_pieces b).1).flatMap
        (fun kn => spec_group_rows cat (count_equipped_set_pieces b).2
          kn.1 kn.2)) ∧
    ∀ kn ∈ (count_equipped_set_pieces b).1,
      ((spec_group_rows cat (count_equipped_set_pieces b).2 kn.1 kn.2).map
        (fun row => row.pieces)).Nodup := by
  constructor
  · unfold compute_set_bonuses
    dsimp only
    refine (List.perm_insertionSort row_order _).trans ?_
    refine (((List.perm_insertionSort group_order
      (count_equipped_set_pieces b).1).flatMap_right _).trans ?_)
    exact List.Perm.flatMap_left _ (fun kn _ => group_rows_perm cat _ kn.1 kn.2)
  · intro kn hkn
    unfold spec_group_rows
    cases kn.1.bonus_id with
    | none => simp
    | some bid =>
      dsimp only
      cases hr : ranks_for cat bid with
      | nil => simp
      | cons r0 rest =>
        dsimp only
        by_cases hemp : (((r0 :: rest).map (fun r => r.pieces)).filter
            (fun p => decide (0 < p))).dedup = []
        · rw [if_pos (by simpa [List.isEmpty_iff] using hemp)]
          simp
        · rw [if_neg (by simpa [List.isEmpty_iff] using hemp)]
          rw [List.map_map]
          have : ((fun row => BonusRow.pieces row) ∘
              (fun t => (⟨r0.set_bonus_name, t, decide (t ≤ (kn.2 : Int))⟩ :
                BonusRow))) = fun t => t := rfl
          rw [this]
          have hmapid : (List.map (fun t => t)
              ((((r0 :: rest).map (fun r => r.pieces)).filter
                (fun p => decide (0 < p))).dedup)) =
              (((r0 :: rest).map (fun r => r.pieces)).filter
                (fun p => decide (0 < p))).dedup := by
            simp
          rw [hmapid]
          exact List.nodup_dedup _

/-- C3 witness: the Scenario-C group (4 pieces of bonus 5) has pairwise
distinct threshold rows. -/
theorem set_bonus_rows_spec_witness :
    ((spec_group_rows exScenarioCCat
        (count_equipped_set_pieces exScenarioCBuild).2
        ⟨some 5, some 200, "Leather"⟩ 4).map (fun row => row.pieces)).Nodup :=
  (set_bonus_rows_spec exScenarioCCat exScenarioCBuild).2
    (⟨some 5, some 200, "Leather"⟩, 4) (by decide)

/-! ### Claim C8: commutativity of the skill merge -/

/-- One `(skill, level, source-tag)` contribution tuple fed to
`_merge_skill` (the shape every source in `_compute_all_skills`
produces). -/
structure Contribution where
  skill : Skill
  add_level : Int
  source_key : String
deriving DecidableEq, Repr

/-- Merging one contribution (the per-tuple step of
`_compute_all_skills`). -/
def apply_contrib (acc : List (Int × SkillRow)) (c : Contribution) :
    List (Int × SkillRow) :=
  merge_skill acc c.skill c.add_level c.source_key

/-- Merging a whole contribution list into an empty accumulator. -/
def merge_all (l : List Contribution) : List (Int × SkillRow) :=
  l.foldl apply_contrib []

/-- Row equality up to the internal ordering of the `sources` dict: equal
skill id, name, level and cap, and identical per-source totals. -/
def row_equiv (r1 r2 : SkillRow) : Prop :=
  r1.skill_id = r2.skill_id ∧ r1.name = r2.name ∧ r1.level = r2.level ∧
    r1.max_level = r2.max_level ∧
    ∀ key, lookupA r1.sources key = lookupA r2.sources key

/-- `row_equiv` lifted to optional rows. -/
def opt_row_equiv : Option SkillRow → Option SkillRow → Prop
  | none, none => True
  | some r1, some r2 => row_equiv r1 r2
  | _, _ => False

/-- Accumulator equality up to dict ordering, per skill id. -/
def acc_equiv (a1 a2 : List (Int × SkillRow)) : Prop :=
  ∀ sid, opt_row_equiv (lookupA a1 sid) (lookupA a2 sid)

theorem row_equiv_refl (r : SkillRow) : row_equiv r r :=
  ⟨rfl, rfl, rfl, rfl, fun _ => rfl⟩

theorem opt_row_equiv_refl (o : Option SkillRow) : opt_row_equiv o o := by
  cases o with
  | none => trivial
  | some r => exact row_equiv_refl r

theorem acc_equiv_refl (a : List (Int × SkillRow)) : acc_equiv a a :=
  fun _ => opt_row_equiv_refl _

theorem row_equiv_trans {r1 r2 r3 : SkillRow} (h1 : row_equiv r1 r2)
    (h2 : row_equiv r2 r3) : row_equiv r1 r3 :=
  ⟨h1.1.trans h2.1, h1.2.1.trans h2.2.1, h1.2.2.1.trans h2.2.2.1,
    h1.2.2.2.1.trans h2.2.2.2.1,
    fun key => (h1.2.2.2.2 key).trans (h2.2.2.2.2 key)⟩

theorem opt_row_equiv_trans {o1 o2 o3 : Option SkillRow}
    (h1 : opt_row_equiv o1 o2) (h2 : opt_row_equiv o2 o3) :
    opt_row_equiv o1 o3 := by
  cases o1 <;> cases o2 <;> cases o3 <;>
    simp [opt_row_equiv] at h1 h2 ⊢
  exact row_equiv_trans h1 h2

theorem acc_equiv_trans {a1 a2 a3 : List (Int × SkillRow)}
    (h1 : acc_equiv a1 a2) (h2 : acc_equiv a2 a3) : acc_equiv a1 a3 :=
  fun sid => opt_row_equiv_trans (h1 sid) (h2 sid)

theorem merge_skill_invalid (acc : List (Int × SkillRow)) (s : Skill)
    (a : Int) (key : String) (h : a ≤ 0 ∨ skill_external_id s ≤ 0) :
    merge_skill acc s a key = acc := by
  unfold merge_skill
  dsimp only
  rcases h with h | h
  · rw [if_pos h]
  · split_ifs with h1
    · rfl
    · rfl

theorem merge_skill_lookup_ne (acc : List (Int × SkillRow)) (s : Skill)
    (a : Int) (key : String) (sid : Int)
    (hne : skill_external_id s ≠ sid) :
    lookupA (merge_skill acc s a key) sid = lookupA acc sid := by
  unfold merge_skill
  dsimp only
  split_ifs with h1 h2
  · rfl
  · rfl
  · rw [lookupA_setA, if_neg hne]

theorem merge_skill_lookup_self (acc : List (Int × SkillRow)) (s : Skill)
    (a : Int) (key : String) (ha : 0 < a)
    (hs : 0 < skill_external_id s) :
    lookupA (merge_skill acc s a key) (skill_external_id s) =
      some (merge_row (lookupA acc (skill_external_id s)) s a key) := by
  unfold merge_skill
  dsimp only
  rw [if_neg (by omega), if_neg (by omega), lookupA_setA, if_pos rfl]

theorem merge_row_equiv {cur1 cur2 : Option SkillRow}
    (h : opt_row_equiv cur1 cur2) (s : Skill) (a : Int) (key : String) :
    row_equiv (merge_row cur1 s a key) (merge_row cur2 s a key) := by
  cases cur1 with
  | none =>
    cases cur2 with
    | none => exact row_equiv_refl _
    | some r2 => exact absurd h (by simp [opt_row_equiv])
  | some r1 =>
    cases cur2 with
    | none => exact absurd h (by simp [opt_row_equiv])
    | some r2 =>
      obtain ⟨hid, hnm, hlv, hmx, hsrc⟩ := h
      unfold merge_row
      dsimp only
      refine ⟨hid, rfl, by rw [hlv], by rw [hmx], ?_⟩
      intro key2
      rw [lookupA_setA, lookupA_setA]
      by_cases hk : key = key2
      · rw [if_pos hk, if_pos hk, hsrc key]
      · rw [if_neg hk, if_neg hk]
        exact hsrc key2

theorem apply_contrib_equiv {a1 a2 : List (Int × SkillRow)}
    (h : acc_equiv a1 a2) (c : Contribution) :
    acc_equiv (apply_contrib a1 c) (apply_contrib a2 c) := by
  intro sid
  unfold apply_contrib
  by_cases hval : c.add_level ≤ 0 ∨ skill_external_id c.skill ≤ 0
  · rw [merge_skill_invalid _ _ _ _ hval, merge_skill_invalid _ _ _ _ hval]
    exact h sid
  · push_neg at hval
    by_cases hsid : skill_external_id c.skill = sid
    · rw [← hsid,
        merge_skill_lookup_self _ _ _ _ (by omega) (by omega),
        merge_skill_lookup_self _ _ _ _ (by omega) (by omega)]
      exact merge_row_equiv (h _) c.skill c.add_level c.source_key
    · rw [merge_skill_lookup_ne _ _ _ _ _ hsid,
        merge_skill_lookup_ne _ _ _ _ _ hsid]
      exact h sid

theorem foldl_apply_equiv :
    ∀ (l : List Contribution) {a1 a2 : List (Int × SkillRow)},
      acc_equiv a1 a2 →
      acc_equiv (l.foldl apply_contrib a1) (l.foldl apply_contrib a2) := by
  intro l
  induction l with
  | nil => intro a1 a2 h; exact h
  | cons c rest ih =>
    intro a1 a2 h
    rw [List.foldl_cons, List.foldl_cons]
    exact ih (apply_contrib_equiv h c)

theorem merge_skill_lookup_eq (acc : List (Int × SkillRow)) (s : Skill)
    (a : Int) (key : String) (sid : Int) (ha : 0 < a)
    (hs : 0 < skill_external_id s) (hsid : skill_external_id s = sid) :
    lookupA (merge_skill acc s a key) sid =
      some (merge_row (lookupA acc sid) s a key) := by
  subst hsid
  exact merge_skill_lookup_self acc s a key ha hs

theorem or_one_ne_zero (n : Int) : or_one n ≠ 0 := by
  unfold or_one
  split_ifs with h <;> omega

theorem lookupA_bump_bump {κ : Type} [DecidableEq κ] (m : List (κ × Int))
    (k1 k2 key : κ) (a1 a2 : Int) :
    lookupA (setA (setA m k1 ((lookupA m k1).getD 0 + a1)) k2
        ((lookupA (setA m k1 ((lookupA m k1).getD 0 + a1)) k2).getD 0 + a2))
      key =
    lookupA (setA (setA m k2 ((lookupA m k2).getD 0 + a2)) k1
        ((lookupA (setA m k2 ((lookupA m k2).getD 0 + a2)) k1).getD 0 + a1))
      key := by
  by_cases h12 : k1 = k2
  · subst h12
    simp only [lookupA_setA, if_pos rfl]
    by_cases hk : k1 = key
    · simp only [hk, if_pos rfl, if_true, Option.getD_some, Option.some_inj]
      omega
    · simp only [if_neg hk]
  · have h21 : ¬ k2 = k1 := fun h => h12 h.symm
    simp only [lookupA_setA, if_neg h12, if_neg h21]
    by_cases h1k : k1 = key
    · have h2k : ¬ k2 = key := fun h => h12 (h1k.trans h.symm)
      simp [h1k, h2k]
    · by_cases h2k : k2 = key
      · simp [h1k, h2k]
      · simp [h1k, h2k]

theorem merge_row_swap (cur : Option SkillRow) (c1 c2 : Contribution)
    (hid : skill_external_id c1.skill = skill_external_id c2.skill)
    (hnm : c1.skill.name = c2.skill.name) :
    row_equiv
      (merge_row (some (merge_row cur c1.skill c1.add_level c1.source_key))
        c2.skill c2.add_level c2.source_key)
      (merge_row (some (merge_row cur c2.skill c2.add_level c2.source_key))
        c1.skill c1.add_level c1.source_key) := by
  have hml1 : skill_max_level c1.skill ≠ 0 := orFalsy_ne_zero (by norm_num)
  have hml2 : skill_max_level c2.skill ≠ 0 := orFalsy_ne_zero (by norm_num)
  cases cur with
  | none =>
    unfold merge_row
    dsimp only
    refine ⟨hid, hnm.symm, ?_, ?_, ?_⟩
    · dsimp only
      omega
    · dsimp only
      unfold or_one
      split_ifs <;> omega
    · intro key
      dsimp only
      exact lookupA_bump_bump [] c1.source_key c2.source_key key
        c1.add_level c2.add_level
  | some r =>
    unfold merge_row
    dsimp only
    refine ⟨rfl, hnm.symm, ?_, ?_, ?_⟩
    · dsimp only
      omega
    · dsimp only
      unfold or_one
      split_ifs <;> omega
    · intro key
      dsimp only
      exact lookupA_bump_bump r.sources c1.source_key c2.source_key key
        c1.add_level c2.add_level

theorem apply_contrib_swap (acc : List (Int × SkillRow))
    (c1 c2 : Contribution)
    (hname : skill_external_id c1.skill = skill_external_id c2.skill →
      c1.skill.name = c2.skill.name) :
    acc_equiv (apply_contrib (apply_contrib acc c1) c2)
      (apply_contrib (apply_contrib acc c2) c1) := by
  by_cases h1 : c1.add_level ≤ 0 ∨ skill_external_id c1.skill ≤ 0
  · unfold apply_contrib
    rw [merge_skill_invalid _ _ _ _ h1, merge_skill_invalid _ _ _ _ h1]
    exact acc_equiv_refl _
  by_cases h2 : c2.add_level ≤ 0 ∨ skill_external_id c2.skill ≤ 0
  · unfold apply_contrib
    rw [merge_skill_invalid _ _ _ _ h2, merge_skill_invalid _ _ _ _ h2]
    exact acc_equiv_refl _
  push_neg at h1 h2
  intro sid
  unfold apply_contrib
  by_cases heq : skill_external_id c1.skill = skill_external_id c2.skill
  · by_cases hs : skill_external_id c1.skill = sid
    · rw [merge_skill_lookup_eq _ _ _ _ _ (by omega) (by omega)
          (heq ▸ hs),
        merge_skill_lookup_eq _ _ _ _ _ (by omega) (by omega) hs,
        merge_skill_lookup_eq _ _ _ _ _ (by omega) (by omega) hs,
        merge_skill_lookup_eq _ _ _ _ _ (by omega) (by omega) (heq ▸ hs)]
      exact merge_row_swap (lookupA acc sid) c1 c2 heq (hname heq)
    · have hs2 : skill_external_id c2.skill ≠ sid := fun he =>
        hs (heq.trans he)
      rw [merge_skill_lookup_ne _ _ _ _ _ hs2,
        merge_skill_lookup_ne _ _ _ _ _ hs,
        merge_skill_lookup_ne _ _ _ _ _ hs,
        merge_skill_lookup_ne _ _ _ _ _ hs2]
      exact opt_row_equiv_refl _
  · by_cases hA : skill_external_id c1.skill = sid
    · have hB : skill_external_id c2.skill ≠ sid := fun he =>
        heq (hA.trans he.symm)
      rw [merge_skill_lookup_ne _ _ _ _ _ hB,
        merge_skill_lookup_eq _ _ _ _ _ (by omega) (by omega) hA,
        merge_skill_lookup_eq _ _ _ _ _ (by omega) (by omega) hA,
        merge_skill_lookup_ne _ _ _ _ _ hB]
      exact opt_row_equiv_refl _
    · by_cases hB : skill_external_id c2.skill = sid
      · rw [merge_skill_lookup_eq _ _ _ _ _ (by omega) (by omega) hB,
          merge_skill_lookup_ne _ _ _ _ _ hA,
          merge_skill_lookup_ne _ _ _ _ _ hA,
          merge_skill_lookup_eq _ _ _ _ _ (by omega) (by omega) hB]
        exact opt_row_equiv_refl _
      · rw [merge_skill_lookup_ne _ _ _ _ _ hB,
          merge_skill_lookup_ne _ _ _ _ _ hA,
          merge_skill_lookup_ne _ _ _ _ _ hA,
          merge_skill_lookup_ne _ _ _ _ _ hB]
        exact opt_row_equiv_refl _

/-- Contribution lists whose tuples agree on the skill name whenever they
agree on the skill external id (automatic when skills come from a catalog
with unique external ids). -/
def name_consistent (l : List Contribution) : Prop :=
  ∀ c1 ∈ l, ∀ c2 ∈ l,
    skill_external_id c1.skill = skill_external_id c2.skill →
    c1.skill.name = c2.skill.name

theorem merge_all_perm_aux {l1 l2 : List Contribution}
    (hp : List.Perm l1 l2) :
    name_consistent l1 →
    ∀ acc, acc_equiv (l1.foldl apply_contrib acc)
      (l2.foldl apply_contrib acc) := by
  induction hp with
  | nil => intro _ acc; exact acc_equiv_refl _
  | cons x p ih =>
    intro hc acc
    rw [List.foldl_cons, List.foldl_cons]
    refine ih (fun c1 hc1 c2 hc2 he => ?_) _
    exact hc c1 (List.mem_cons_of_mem x hc1) c2 (List.mem_cons_of_mem x hc2) he
  | swap x y l =>
    intro hc acc
    rw [List.foldl_cons, List.foldl_cons, List.foldl_cons, List.foldl_cons]
    apply foldl_apply_equiv
    exact apply_contrib_swap acc y x
      (hc y (by simp) x (by simp))
  | trans p1 p2 ih1 ih2 =>
    intro hc acc
    refine acc_equiv_trans (ih1 hc acc) (ih2 ?_ acc)
    intro c1 hc1 c2 hc2 he
    exact hc c1 (p1.mem_iff.mpr hc1) c2 (p1.mem_iff.mpr hc2) he

/-- C8 (amended): merging a set of contributions in any order yields, for
every skill id, the same level, cap and per-source totals (and hence the
same clamped display level); the name also agrees provided all
contributions for one skill id carry the same skill name.  Without that
proviso the name alone is order-dependent (see the counterexample). -/
theorem merge_commutative_amended (l1 l2 : List Contribution)
    (hp : List.Perm l1 l2) (hname : name_consistent l1) (sid : Int) :
    opt_row_equiv (lookupA (merge_all l1) sid)
      (lookupA (merge_all l2) sid) ∧
    ∀ r1 r2, lookupA (merge_all l1) sid = some r1 →
      lookupA (merge_all l2) sid = some r2 →
      (clamp_row r1).level = (clamp_row r2).level := by
  have h : opt_row_equiv (lookupA (merge_all l1) sid)
      (lookupA (merge_all l2) sid) := merge_all_perm_aux hp hname [] sid
  refine ⟨h, ?_⟩
  intro r1 r2 he1 he2
  rw [he1, he2] at h
  obtain ⟨_, _, hlv, hmx, _⟩ := h
  have hcl : ∀ r : SkillRow, (clamp_row r).level =
      if or_one r.max_level < r.level then or_one r.max_level else r.level := by
    intro r
    unfold clamp_row
    split_ifs <;> rfl
  rw [hcl, hcl, hlv, hmx]

/-- Two contributions for the same skill external id but with different
stored skill names. -/
def exContribAlpha : Contribution := ⟨⟨some 1, "Alpha", some 3⟩, 1, "armor"⟩

/-- The conflicting twin of `exContribAlpha`. -/
def exContribBeta : Contribution := ⟨⟨some 1, "Beta", some 3⟩, 1, "charm"⟩

/-- C8 counterexample: the two orders of the same contribution pair are a
permutation of each other, yet the finalized rows differ (the stored name
is last-writer-wins), refuting order-independence of the full rows as
claimed. -/
theorem merge_commutative_counterexample :
    List.Perm [exContribAlpha, exContribBeta]
      [exContribBeta, exContribAlpha] ∧
    finalize_skills (merge_all [exContribAlpha, exContribBeta]) ≠
      finalize_skills (merge_all [exContribBeta, exContribAlpha]) ∧
    (finalize_skills (merge_all [exContribAlpha, exContribBeta])).map
        (fun row => row.name) = ["Beta"] ∧
    (finalize_skills (merge_all [exContribBeta, exContribAlpha])).map
        (fun row => row.name) = ["Alpha"] := by
  refine ⟨List.Perm.swap exContribBeta exContribAlpha [], by decide,
    by decide, by decide⟩

/-- Two name-consistent contributions for skill id 2 from different
sources. -/
def exContribA2 : Contribution := ⟨⟨some 2, "Focus", some 3⟩, 2, "armor"⟩

/-- The decoration-sourced twin of `exContribA2`. -/
def exContribB2 : Contribution := ⟨⟨some 2, "Focus", some 3⟩, 2, "decoration"⟩

/-- C8 witness: for a name-consistent pair merged in both orders, the rows
for skill id 2 agree up to source-dict ordering and clamp equally. -/
theorem merge_commutative_amended_witness :
    opt_row_equiv (lookupA (merge_all [exContribA2, exContribB2]) 2)
      (lookupA (merge_all [exContribB2, exContribA2]) 2) ∧
    ∀ r1 r2, lookupA (merge_all [exContribA2, exContribB2]) 2 = some r1 →
      lookupA (merge_all [exContribB2, exContribA2]) 2 = some r2 →
      (clamp_row r1).level = (clamp_row r2).level :=
  merge_commutative_amended [exContribA2, exContribB2]
    [exContribB2, exContribA2]
    (List.Perm.swap exContribB2 exContribA2 [])
    (by unfold name_consistent; decide) 2

end MHW
